import Mathlib

/-!
Shallow embedding of `watch_quota.py`: a polling monitor that watches a
browser-rendered course table and reports quota changes per section.

The embedding models the module-level script faithfully:
* `acquire` is the inner table-presence retry loop (lines 43-54), with the
  global `tries` counter threaded explicitly and the `max_tries = 10` reload
  escalation (`driver.get` + `print("Could not load page")` modelled as the
  `Ev.couldNotLoad` event and a reset of the counter).
* `sectionLoop` is the per-section body (lines 66-93): row lookup (fatal
  `print` + `driver.close()` + `exit()` when absent), the identifier
  assertion (line 78, an uncaught AssertionError on mismatch), the
  `section_quota_cache` read with the `""` default (lines 80-83), the cache
  overwrite (line 85) and the change notification (lines 87-93) together
  with the `has_changed_quota` flag.
* `cycleStep` is one iteration of the outer `while True` (lines 41-100):
  acquisition, the guarded target-row click (lines 56-64, where both a
  raised lookup error and the failed `assert row_course_code.text == course`
  land in the same `except Exception` handler that prints, closes the
  driver and exits), the section loop, the "quotas are unchanged" line
  (lines 95-96), the sleep (where an operator interrupt may arrive) and the
  refresh.
* `runCycles` is the outer loop wrapped in `try ... finally: driver.close()`
  (lines 40, 101-102): every terminating outcome appends the `finally`
  close; an `exit()` path has already closed the driver once itself.

Environment data (`CycleEnv`) stands for what the remote page reports:
one boolean per `find_element(By.ID, "courses")` attempt, the outcome of
the target-row click chain, and per-section row data.
-/

namespace WatchQuota

/-- What the remote page reports for one section row: whether
`find_element(By.ID, course_section)` succeeds, the text of the first
`td` cell, and the text of the second-to-last `td` cell (the quota). -/
structure SectionData where
  rowFound : Bool
  idText : String
  quota : String
deriving DecidableEq

/-- Outcome of the target-row chain (lines 57-60): either some exception is
raised before the identifier text is read (wait timeout, lookup failure),
or the first cell's text is read as `t` and the assertion `t == course`
then decides between clicking and the common exception handler. -/
inductive ClickOutcome where
  | raised : ClickOutcome
  | text : String → ClickOutcome
deriving DecidableEq

/-- Observable events of the script: each `print` to stdout, each
`driver.get(url)` reload escalation (`couldNotLoad`), the click on the
target row, each `driver.close()` call, and each `driver.refresh()`. -/
inductive Ev where
  | couldNotLoad : Ev
  | couldNotClick : Ev
  | clickTarget : Ev
  | sectionNotFound : String → Ev
  | quotaChange : String → String → Ev
  | unchanged : Ev
  | close : Ev
  | refresh : Ev
deriving DecidableEq

/-- The `section_quota_cache` dictionary: association list keyed by
section, last write wins. -/
abbrev Cache := List (String × String)

/-- Python `section in section_quota_cache` / `section_quota_cache[section]`. -/
def cacheGet : Cache → String → Option String
  | [], _ => none
  | (k, v) :: rest, s => if k = s then some v else cacheGet rest s

/-- Python `section_quota_cache[section] = value` (overwrite or insert). -/
def cacheSet : Cache → String → String → Cache
  | [], s, v => [(s, v)]
  | (k, w) :: rest, s, v =>
    if k = s then (s, v) :: rest else (k, w) :: cacheSet rest s v

/-- `max_tries = 10` (line 38). -/
def max_tries : Nat := 10

/-- The table-presence retry loop (lines 43-54). The list holds one boolean
per `find_element(By.ID, "courses")` attempt (`true` = table present). Each
iteration first escalates to a reload when the counter has reached
`max_tries` (emitting `couldNotLoad` and resetting the counter), then
consumes one report: success breaks out of the loop returning the current
counter, failure increments the counter and retries. Returns the emitted
events and, when a report succeeded, the counter value at loop exit;
`none` models exhausting the supplied reports without the table appearing
(the real loop would keep spinning). -/
def acquire : Nat → List Bool → List Ev × Option Nat
  | _, [] => ([], none)
  | tries, r :: rest =>
    let st : List Ev × Nat :=
      if tries = max_tries then ([Ev.couldNotLoad], 0) else ([], tries)
    if r then (st.1, some st.2)
    else
      let q := acquire (st.2 + 1) rest
      (st.1 ++ q.1, q.2)

/-- Result of the per-section `for` loop (lines 67-93): normal completion
with the final cache and `has_changed_quota` flag, the fatal
section-not-found path (print + close + exit, lines 72-75), or the
identifier assertion failure (line 78, an uncaught AssertionError carrying
the offending `course_section`). Events printed before the failure are
kept in every case. -/
inductive SecResult where
  | ok : Cache → Bool → List Ev → SecResult
  | sectionMissing : Cache → List Ev → SecResult
  | badId : Cache → String → List Ev → SecResult
deriving DecidableEq

/-- The cache component of a `SecResult`. -/
def SecResult.cacheOf : SecResult → Cache
  | .ok c _ _ => c
  | .sectionMissing c _ => c
  | .badId c _ _ => c

/-- The events component of a `SecResult`. -/
def SecResult.eventsOf : SecResult → List Ev
  | .ok _ _ e => e
  | .sectionMissing _ e => e
  | .badId _ _ e => e

/-- The per-section loop body (lines 67-93), one recursive step per
section in order: build `course_section`, look the row up (fatal path when
absent), assert the first cell equals `course_section`, read the old cache
entry with default `""` (lines 80-83), overwrite the cache with the newly
read quota (line 85), and emit a change notification precisely when the
old value differs from the new one (lines 87-93), raising the
`has_changed_quota` flag in that case. -/
def sectionLoop (course : String) (env : String → SectionData) :
    Cache → Bool → List String → SecResult
  | cache, changed, [] => .ok cache changed []
  | cache, changed, s :: rest =>
    let cs := course ++ "-" ++ s
    let d := env s
    if d.rowFound = true then
      if d.idText = cs then
        let old := (cacheGet cache s).getD ""
        let cache2 := cacheSet cache s d.quota
        let pr : List Ev × Bool :=
          if old = d.quota then ([], changed)
          else ([Ev.quotaChange cs d.quota], true)
        match sectionLoop course env cache2 pr.2 rest with
        | .ok c ch e => .ok c ch (pr.1 ++ e)
        | .sectionMissing c e => .sectionMissing c (pr.1 ++ e)
        | .badId c x e => .badId c x (pr.1 ++ e)
      else .badId cache cs []
    else .sectionMissing cache [Ev.sectionNotFound cs]

/-- How one run of the script ends, as far as the supplied environment
determines it: `running` = the supplied cycle environments were exhausted
with the loop still going (carrying the live `tries` counter and cache);
`hang` = the inner acquisition loop never saw the table in the supplied
reports; `exited` = an `exit()` path ran (SystemExit through the
`finally`); `assertFailed` = the line-78 assertion error propagated to the
top with the offending identifier; `interruptedOut` = an operator
interrupt during the sleep propagated through the `finally`. -/
inductive Outcome where
  | running : Nat → Cache → Outcome
  | hang : Outcome
  | exited : Outcome
  | assertFailed : String → Outcome
  | interruptedOut : Outcome
deriving DecidableEq

/-- Result of one outer-loop iteration: continue with new counter/cache,
stop with a terminal outcome, or spin forever inside acquisition. -/
inductive CycleResult where
  | next : Nat → Cache → List Ev → CycleResult
  | stop : List Ev → Outcome → CycleResult
  | stuck : List Ev → CycleResult
deriving DecidableEq

/-- The events component of a `CycleResult`. -/
def CycleResult.eventsOf : CycleResult → List Ev
  | .next _ _ e => e
  | .stop e _ => e
  | .stuck e => e

/-- Environment for one outer-loop iteration: the table-presence reports
consumed by `acquire` during this cycle, the target-row click outcome,
the per-section row data, and whether an operator interrupt arrives during
the end-of-cycle sleep. -/
structure CycleEnv where
  tableReports : List Bool
  click : ClickOutcome
  sec : String → SectionData
  interrupted : Bool

/-- One iteration of the outer `while True` (lines 41-100). Acquisition
first; on a raised click-chain error or a failed target-row assertion the
common handler prints, closes the driver and calls `exit()` — the
resulting SystemExit then runs the `finally` close as well, so both
`close` events appear. A completed section loop emits the single
"unchanged" line exactly when no key changed, then sleeps (where an
interrupt may arrive and propagate through the `finally` close) and
refreshes. A missing section likewise closes twice (explicit close +
`finally`); a failed line-78 assertion propagates and is closed once by
the `finally` alone. -/
def cycleStep (course : String) (sections : List String) (tries : Nat)
    (cache : Cache) (e : CycleEnv) : CycleResult :=
  let a := acquire tries e.tableReports
  match a.2 with
  | none => .stuck a.1
  | some tries2 =>
    match e.click with
    | .raised => .stop (a.1 ++ [Ev.couldNotClick, Ev.close, Ev.close]) .exited
    | .text t =>
      if t = course then
        match sectionLoop course e.sec cache false sections with
        | .ok cache2 changed evs =>
          let evs2 : List Ev := if changed then [] else [Ev.unchanged]
          if e.interrupted then
            .stop (a.1 ++ [Ev.clickTarget] ++ evs ++ evs2 ++ [Ev.close])
              .interruptedOut
          else
            .next tries2 cache2
              (a.1 ++ [Ev.clickTarget] ++ evs ++ evs2 ++ [Ev.refresh])
        | .sectionMissing _ evs =>
          .stop (a.1 ++ [Ev.clickTarget] ++ evs ++ [Ev.close, Ev.close]) .exited
        | .badId _ cs evs =>
          .stop (a.1 ++ [Ev.clickTarget] ++ evs ++ [Ev.close])
            (.assertFailed cs)
      else .stop (a.1 ++ [Ev.couldNotClick, Ev.close, Ev.close]) .exited

/-- The outer `while True` loop (lines 40-102) wrapped in
`try ... finally: driver.close()`, driven by one `CycleEnv` per iteration;
the global `tries` counter and the cache are threaded across cycles just
as the module-level variables are. -/
def runCycles (course : String) (sections : List String) :
    Nat → Cache → List CycleEnv → List Ev × Outcome
  | tries, cache, [] => ([], .running tries cache)
  | tries, cache, e :: rest =>
    match cycleStep course sections tries cache e with
    | .next t c evs =>
      let r := runCycles course sections t c rest
      (evs ++ r.1, r.2)
    | .stop evs out => (evs, out)
    | .stuck evs => (evs, .hang)

/-- Recognizes a change notification carrying the given `course_section`
identifier. -/
def keyHit (cs : String) : Ev → Bool
  | Ev.quotaChange c _ => c == cs
  | _ => false

/-- Counts the change notifications carried by a given
`course_section` identifier in an event list. -/
def countKeyEvents (cs : String) (evs : List Ev) : Nat :=
  evs.countP (keyHit cs)

/-- Recognizes the events the per-section loop itself can print: change
notifications and the section-not-found report. -/
def isRowEv : Ev → Bool
  | Ev.quotaChange _ _ => true
  | Ev.sectionNotFound _ => true
  | _ => false

/-- Prepend events to a `SecResult`, keeping its shape. -/
def SecResult.withEvents (r : SecResult) (evs : List Ev) : SecResult :=
  match r with
  | .ok c ch e => .ok c ch (evs ++ e)
  | .sectionMissing c e => .sectionMissing c (evs ++ e)
  | .badId c x e => .badId c x (evs ++ e)

/-- Page data where every section row is present, well-labelled, and
shows quota "5". -/
def envAllOk : String → SectionData := fun s => ⟨true, "CS-" ++ s, "5"⟩

/-- Page data where every section row is present and well-labelled but the
quota cell is the empty string. -/
def envEmptyQuota : String → SectionData := fun s => ⟨true, "CS-" ++ s, ""⟩

/-- Page data where no section row is ever found. -/
def envNoRows : String → SectionData := fun _ => ⟨false, "", ""⟩

/-- Page data where section "002" is missing and every other row is
present, well-labelled, with quota "5". -/
def envMissing002 : String → SectionData :=
  fun s => if s = "002" then ⟨false, "", ""⟩ else ⟨true, "CS-" ++ s, "5"⟩

/-- Page data where every section row is present but its first cell shows
the wrong identifier text. -/
def envWrongLabel : String → SectionData := fun _ => ⟨true, "WRONG", "5"⟩

/-- A cycle whose acquisition reports five table absences then presence,
with a healthy page otherwise. -/
def ceFiveAbsences : CycleEnv :=
  ⟨List.replicate 5 false ++ [true], .text "CS", envAllOk, false⟩

/-- A healthy cycle: table present at once, target row reads "CS",
all section rows present. -/
def ceHealthy : CycleEnv := ⟨[true], .text "CS", envAllOk, false⟩

/-- A cycle in which no section row can be found. -/
def ceNoRows : CycleEnv := ⟨[true], .text "CS", envNoRows, false⟩

/-- A cycle in which the target row's displayed identifier reads "XX". -/
def ceWrongTarget : CycleEnv := ⟨[true], .text "XX", envAllOk, false⟩

/-- A cycle in which section "002" is missing from the table. -/
def ceMissing002 : CycleEnv := ⟨[true], .text "CS", envMissing002, false⟩

/-- A cycle in which every section row carries the wrong identifier
text. -/
def ceWrongLabel : CycleEnv := ⟨[true], .text "CS", envWrongLabel, false⟩

/-- Replays the line-85 cache overwrites for a list of sections in order,
without the surrounding control flow. -/
def applyUpdates (env : String → SectionData) : Cache → List String → Cache
  | cache, [] => cache
  | cache, s :: rest => applyUpdates env (cacheSet cache s (env s).quota) rest

/-- Number of `driver.close()` calls each terminal outcome performs:
`exit()` paths close explicitly and then again in the `finally`; a
propagated assertion error or interrupt is closed by the `finally` alone;
a still-running or spinning process has not closed at all. -/
def closeCountOf : Outcome → Nat
  | .exited => 2
  | .assertFailed _ => 1
  | .interruptedOut => 1
  | .running _ _ => 0
  | .hang => 0

theorem cacheGet_set_self (c : Cache) (k v : String) :
    cacheGet (cacheSet c k v) k = some v := by
  induction c with
  | nil => simp [cacheSet, cacheGet]
  | cons p rest ih =>
    obtain ⟨a, b⟩ := p
    by_cases h : a = k
    · simp [cacheSet, cacheGet, h]
    · simp [cacheSet, cacheGet, h, ih]

theorem cacheGet_set_ne (c : Cache) (k k' v : String) (h : k ≠ k') :
    cacheGet (cacheSet c k v) k' = cacheGet c k' := by
  have hks : ¬(k' = k) := fun hh => h hh.symm
  induction c with
  | nil => simp [cacheSet, cacheGet, h]
  | cons p rest ih =>
    obtain ⟨a, b⟩ := p
    by_cases ha : a = k
    · subst ha
      simp [cacheSet, cacheGet, h, hks]
    · by_cases ha' : a = k'
      · simp [cacheSet, cacheGet, ha, ha', hks]
      · simp [cacheSet, cacheGet, ha, ha', ih]

theorem applyUpdates_get_notMem (env : String → SectionData) :
    ∀ (ss : List String) (cache : Cache) (k : String), k ∉ ss →
      cacheGet (applyUpdates env cache ss) k = cacheGet cache k := by
  intro ss
  induction ss with
  | nil => intro cache k _; rfl
  | cons s rest ih =>
    intro cache k hk
    have hks : s ≠ k := fun h => hk (by simp [h])
    have hkr : k ∉ rest := fun h => hk (by simp [h])
    rw [applyUpdates, ih _ _ hkr, cacheGet_set_ne _ _ _ _ hks]

theorem applyUpdates_get_mem (env : String → SectionData) :
    ∀ (ss : List String) (cache : Cache) (s : String), s ∈ ss → ss.Nodup →
      cacheGet (applyUpdates env cache ss) s = some (env s).quota := by
  intro ss
  induction ss with
  | nil => intro _ _ h _; simp at h
  | cons a rest ih =>
    intro cache s hs hnd
    rw [applyUpdates]
    by_cases h : s ∈ rest
    · exact ih _ _ h (List.Nodup.of_cons hnd)
    · have has : s = a := by
        rcases List.mem_cons.mp hs with h1 | h1
        · exact h1
        · exact absurd h1 h
      subst has
      rw [applyUpdates_get_notMem env _ _ _ h, cacheGet_set_self]

theorem string_append_left_cancel {a x y : String} (h : a ++ x = a ++ y) :
    x = y := by
  have hd : a.data ++ x.data = a.data ++ y.data := by
    rw [← String.data_append, ← String.data_append, h]
  have hxy := List.append_cancel_left hd
  cases x
  cases y
  exact congrArg String.mk hxy

theorem course_section_inj {course s1 s2 : String}
    (h : course ++ "-" ++ s1 = course ++ "-" ++ s2) : s1 = s2 :=
  string_append_left_cancel h

theorem acquire_events_all (l : List Bool) :
    ∀ (t : Nat) (ev : Ev), ev ∈ (acquire t l).1 → ev = Ev.couldNotLoad := by
  induction l with
  | nil => intro t ev h; simp [acquire] at h
  | cons r rest ih =>
    intro t ev h
    by_cases ht : t = max_tries
    · cases r
      · simp [acquire, ht] at h
        rcases h with h | h
        · exact h
        · exact ih _ _ h
      · simp [acquire, ht] at h
        exact h
    · cases r
      · simp [acquire, ht] at h
        exact ih _ _ h
      · simp [acquire, ht] at h

theorem acquire_count_eq_zero (l : List Bool) (t : Nat) {ev : Ev}
    (h : ev ≠ Ev.couldNotLoad) : (acquire t l).1.count ev = 0 :=
  List.count_eq_zero.mpr (fun hm => h (acquire_events_all l t ev hm))

theorem acquire_replicate (M : Nat) : ∀ t, t ≤ max_tries →
    acquire t (List.replicate M false ++ [true]) =
      (List.replicate ((t + M) / 10) Ev.couldNotLoad, some ((t + M) % 10)) := by
  induction M with
  | zero =>
    intro t ht
    by_cases h : t = max_tries
    · subst h
      simp [acquire, max_tries]
    · have hlt : t < 10 := by
        simp only [max_tries] at h ht
        omega
      simp [acquire, h, Nat.div_eq_of_lt hlt, Nat.mod_eq_of_lt hlt]
  | succ M ih =>
    intro t ht
    rw [List.replicate_succ, List.cons_append]
    by_cases h : t = max_tries
    · subst h
      simp only [acquire, if_true, Bool.false_eq_true, ite_false, eq_self_iff_true]
      rw [ih 1 (by simp [max_tries])]
      have e1 : max_tries + (M + 1) = (1 + M) + 10 := by simp [max_tries]; omega
      rw [e1, Nat.add_div_right _ (by omega), Nat.add_mod_right]
      simp [List.replicate_succ]
    · have hlt : t < 10 := by
        simp only [max_tries] at h ht
        omega
      simp only [acquire, h, if_false, Bool.false_eq_true, ite_false]
      rw [ih (t + 1) (by simp [max_tries]; omega)]
      have e1 : t + (M + 1) = (t + 1) + M := by omega
      rw [e1]
      simp

theorem SecResult.eventsOf_withEvents (r : SecResult) (evs : List Ev) :
    (r.withEvents evs).eventsOf = evs ++ r.eventsOf := by
  cases r <;> rfl

theorem SecResult.cacheOf_withEvents (r : SecResult) (evs : List Ev) :
    (r.withEvents evs).cacheOf = r.cacheOf := by
  cases r <;> rfl

theorem sectionLoop_cons_good (course : String) (env : String → SectionData)
    (cache : Cache) (ch : Bool) (s : String) (rest : List String)
    (hf : (env s).rowFound = true) (hid : (env s).idText = course ++ "-" ++ s) :
    sectionLoop course env cache ch (s :: rest) =
      (sectionLoop course env (cacheSet cache s (env s).quota)
          (if (cacheGet cache s).getD "" = (env s).quota then ch else true)
          rest).withEvents
        (if (cacheGet cache s).getD "" = (env s).quota then []
          else [Ev.quotaChange (course ++ "-" ++ s) (env s).quota]) := by
  by_cases hq : (cacheGet cache s).getD "" = (env s).quota
  · simp only [sectionLoop, hf, hid, hq, eq_self_iff_true, if_true, ite_true]
    cases sectionLoop course env (cacheSet cache s (env s).quota) ch rest <;>
      simp [SecResult.withEvents]
  · simp only [sectionLoop, hf, hid, hq, eq_self_iff_true, if_true, ite_true,
      if_false, ite_false]
    cases sectionLoop course env (cacheSet cache s (env s).quota) true rest <;>
      simp [SecResult.withEvents]

theorem sectionLoop_cons_notFound (course : String) (env : String → SectionData)
    (cache : Cache) (ch : Bool) (s : String) (rest : List String)
    (hf : (env s).rowFound = false) :
    sectionLoop course env cache ch (s :: rest) =
      .sectionMissing cache [Ev.sectionNotFound (course ++ "-" ++ s)] := by
  simp [sectionLoop, hf]

theorem sectionLoop_cons_badId (course : String) (env : String → SectionData)
    (cache : Cache) (ch : Bool) (s : String) (rest : List String)
    (hf : (env s).rowFound = true) (hid : (env s).idText ≠ course ++ "-" ++ s) :
    sectionLoop course env cache ch (s :: rest) =
      .badId cache (course ++ "-" ++ s) [] := by
  simp [sectionLoop, hf, hid]

theorem sectionLoop_events_row (course : String) (env : String → SectionData) :
    ∀ (ss : List String) (cache : Cache) (ch : Bool) (ev : Ev),
      ev ∈ (sectionLoop course env cache ch ss).eventsOf → isRowEv ev = true := by
  intro ss
  induction ss with
  | nil => intro cache ch ev h; simp [sectionLoop, SecResult.eventsOf] at h
  | cons s rest ih =>
    intro cache ch ev h
    by_cases hf : (env s).rowFound = true
    · by_cases hid : (env s).idText = course ++ "-" ++ s
      · rw [sectionLoop_cons_good course env cache ch s rest hf hid,
          SecResult.eventsOf_withEvents] at h
        rcases List.mem_append.mp h with h1 | h1
        · by_cases hq : (cacheGet cache s).getD "" = (env s).quota
          · rw [if_pos hq] at h1
            simp at h1
          · rw [if_neg hq] at h1
            simp at h1
            subst h1
            rfl
        · exact ih _ _ _ h1
      · rw [sectionLoop_cons_badId course env cache ch s rest hf hid] at h
        simp [SecResult.eventsOf] at h
    · have hf' : (env s).rowFound = false := by
        cases hx : (env s).rowFound
        · rfl
        · exact absurd hx hf
      rw [sectionLoop_cons_notFound course env cache ch s rest hf'] at h
      simp [SecResult.eventsOf] at h
      subst h
      rfl

theorem sectionLoop_count_not_row (course : String) (env : String → SectionData)
    (ss : List String) (cache : Cache) (ch : Bool) {ev : Ev}
    (h : isRowEv ev = false) :
    (sectionLoop course env cache ch ss).eventsOf.count ev = 0 :=
  List.count_eq_zero.mpr fun hm => by
    have hr := sectionLoop_events_row course env ss cache ch ev hm
    rw [hr] at h
    exact Bool.noConfusion h

theorem sectionLoop_ok_cache (course : String) (env : String → SectionData) :
    ∀ (ss : List String) (cache : Cache) (ch : Bool) (c2 : Cache) (ch2 : Bool)
      (evs : List Ev),
      sectionLoop course env cache ch ss = .ok c2 ch2 evs →
      c2 = applyUpdates env cache ss := by
  intro ss
  induction ss with
  | nil =>
    intro cache ch c2 ch2 evs h
    simp [sectionLoop] at h
    exact h.1.symm
  | cons s rest ih =>
    intro cache ch c2 ch2 evs h
    by_cases hf : (env s).rowFound = true
    · by_cases hid : (env s).idText = course ++ "-" ++ s
      · rw [sectionLoop_cons_good course env cache ch s rest hf hid] at h
        cases hrec : sectionLoop course env (cacheSet cache s (env s).quota)
            (if (cacheGet cache s).getD "" = (env s).quota then ch else true)
            rest with
        | ok c3 ch3 e3 =>
          rw [hrec] at h
          simp [SecResult.withEvents] at h
          rw [applyUpdates, ← h.1]
          exact ih _ _ _ _ _ hrec
        | sectionMissing c3 e3 =>
          rw [hrec] at h
          simp [SecResult.withEvents] at h
        | badId c3 x3 e3 =>
          rw [hrec] at h
          simp [SecResult.withEvents] at h
      · rw [sectionLoop_cons_badId course env cache ch s rest hf hid] at h
        simp at h
    · have hf' : (env s).rowFound = false := by
        cases hx : (env s).rowFound
        · rfl
        · exact absurd hx hf
      rw [sectionLoop_cons_notFound course env cache ch s rest hf'] at h
      simp at h

theorem sectionLoop_true_flag (course : String) (env : String → SectionData) :
    ∀ (ss : List String) (cache : Cache) (c2 : Cache) (ch2 : Bool)
      (evs : List Ev),
      sectionLoop course env cache true ss = .ok c2 ch2 evs → ch2 = true := by
  intro ss
  induction ss with
  | nil =>
    intro cache c2 ch2 evs h
    simp [sectionLoop] at h
    exact h.2.1
  | cons s rest ih =>
    intro cache c2 ch2 evs h
    by_cases hf : (env s).rowFound = true
    · by_cases hid : (env s).idText = course ++ "-" ++ s
      · rw [sectionLoop_cons_good course env cache true s rest hf hid,
          ite_self] at h
        cases hrec : sectionLoop course env (cacheSet cache s (env s).quota)
            true rest with
        | ok c3 ch3 e3 =>
          rw [hrec] at h
          simp [SecResult.withEvents] at h
          rw [← h.2.1]
          exact ih _ _ _ _ hrec
        | sectionMissing c3 e3 =>
          rw [hrec] at h
          simp [SecResult.withEvents] at h
        | badId c3 x3 e3 =>
          rw [hrec] at h
          simp [SecResult.withEvents] at h
      · rw [sectionLoop_cons_badId course env cache true s rest hf hid] at h
        simp at h
    · have hf' : (env s).rowFound = false := by
        cases hx : (env s).rowFound
        · rfl
        · exact absurd hx hf
      rw [sectionLoop_cons_notFound course env cache true s rest hf'] at h
      simp at h

theorem sectionLoop_flag_iff (course : String) (env : String → SectionData) :
    ∀ (ss : List String) (cache : Cache) (c2 : Cache) (ch2 : Bool)
      (evs : List Ev),
      ss.Nodup →
      sectionLoop course env cache false ss = .ok c2 ch2 evs →
      (ch2 = false ↔ ∀ s ∈ ss, (env s).quota = (cacheGet cache s).getD "") := by
  intro ss
  induction ss with
  | nil =>
    intro cache c2 ch2 evs _ h
    simp [sectionLoop] at h
    simp [h.2.1]
  | cons s rest ih =>
    intro cache c2 ch2 evs hnd h
    by_cases hf : (env s).rowFound = true
    · by_cases hid : (env s).idText = course ++ "-" ++ s
      · rw [sectionLoop_cons_good course env cache false s rest hf hid] at h
        by_cases hq : (cacheGet cache s).getD "" = (env s).quota
        · rw [if_pos hq, if_pos hq] at h
          cases hrec : sectionLoop course env (cacheSet cache s (env s).quota)
              false rest with
          | ok c3 ch3 e3 =>
            rw [hrec] at h
            simp [SecResult.withEvents] at h
            have hiff := ih _ _ _ _ (List.Nodup.of_cons hnd) hrec
            have htrans : (∀ s' ∈ rest,
                (env s').quota =
                  (cacheGet (cacheSet cache s (env s).quota) s').getD "") ↔
                ∀ s' ∈ rest, (env s').quota = (cacheGet cache s').getD "" := by
              constructor
              · intro hall s' hs'
                have hne : s ≠ s' := fun he =>
                  (List.nodup_cons.mp hnd).1 (he ▸ hs')
                have := hall s' hs'
                rwa [cacheGet_set_ne _ _ _ _ hne] at this
              · intro hall s' hs'
                have hne : s ≠ s' := fun he =>
                  (List.nodup_cons.mp hnd).1 (he ▸ hs')
                rw [cacheGet_set_ne _ _ _ _ hne]
                exact hall s' hs'
            rw [← h.2.1]
            rw [hiff, htrans]
            constructor
            · intro hall s' hs'
              rcases List.mem_cons.mp hs' with he | he
              · rw [he]
                exact hq.symm
              · exact hall s' he
            · intro hall s' hs'
              exact hall s' (List.mem_cons_of_mem _ hs')
          | sectionMissing c3 e3 =>
            rw [hrec] at h
            simp [SecResult.withEvents] at h
          | badId c3 x3 e3 =>
            rw [hrec] at h
            simp [SecResult.withEvents] at h
        · rw [if_neg hq, if_neg hq] at h
          cases hrec : sectionLoop course env (cacheSet cache s (env s).quota)
              true rest with
          | ok c3 ch3 e3 =>
            rw [hrec] at h
            simp [SecResult.withEvents] at h
            have hch3 := sectionLoop_true_flag course env rest _ _ _ _ hrec
            rw [← h.2.1, hch3]
            simp only [Bool.true_eq_false, false_iff]
            intro hall
            exact hq ((hall s (List.mem_cons_self s rest)).symm)
          | sectionMissing c3 e3 =>
            rw [hrec] at h
            simp [SecResult.withEvents] at h
          | badId c3 x3 e3 =>
            rw [hrec] at h
            simp [SecResult.withEvents] at h
      · rw [sectionLoop_cons_badId course env cache false s rest hf hid] at h
        simp at h
    · have hf' : (env s).rowFound = false := by
        cases hx : (env s).rowFound
        · rfl
        · exact absurd hx hf
      rw [sectionLoop_cons_notFound course env cache false s rest hf'] at h
      simp at h

theorem keyHit_self (cs v : String) : keyHit cs (Ev.quotaChange cs v) = true := by
  simp [keyHit]

theorem keyHit_other {c cs : String} (v : String) (h : c ≠ cs) :
    keyHit cs (Ev.quotaChange c v) = false := by
  simp [keyHit, h]

theorem sectionLoop_countKey_notMem (course : String) (env : String → SectionData)
    (s : String) :
    ∀ (ss : List String) (cache : Cache) (ch : Bool), s ∉ ss →
      countKeyEvents (course ++ "-" ++ s)
        (sectionLoop course env cache ch ss).eventsOf = 0 := by
  intro ss
  induction ss with
  | nil =>
    intro cache ch _
    simp [sectionLoop, SecResult.eventsOf, countKeyEvents]
  | cons a rest ih =>
    intro cache ch hs
    have has : a ≠ s := fun hh => hs (hh ▸ List.mem_cons_self a rest)
    have hsr : s ∉ rest := fun hh => hs (List.mem_cons_of_mem _ hh)
    by_cases hf : (env a).rowFound = true
    · by_cases hid : (env a).idText = course ++ "-" ++ a
      · rw [sectionLoop_cons_good course env cache ch a rest hf hid,
          SecResult.eventsOf_withEvents, countKeyEvents, List.countP_append]
        have h2 := ih (cacheSet cache a (env a).quota)
          (if (cacheGet cache a).getD "" = (env a).quota then ch else true) hsr
        rw [countKeyEvents] at h2
        rw [h2, Nat.add_zero]
        by_cases hq : (cacheGet cache a).getD "" = (env a).quota
        · rw [if_pos hq]
          simp
        · rw [if_neg hq]
          have hcs : course ++ "-" ++ a ≠ course ++ "-" ++ s :=
            fun hh => has (course_section_inj hh)
          simp [List.countP_cons, keyHit_other _ hcs]
      · rw [sectionLoop_cons_badId course env cache ch a rest hf hid]
        simp [SecResult.eventsOf, countKeyEvents]
    · have hf' : (env a).rowFound = false := by
        cases hx : (env a).rowFound
        · rfl
        · exact absurd hx hf
      rw [sectionLoop_cons_notFound course env cache ch a rest hf']
      simp [SecResult.eventsOf, countKeyEvents, List.countP_cons, keyHit]

theorem sectionLoop_countKey (course : String) (env : String → SectionData)
    (s : String) :
    ∀ (ss : List String) (cache : Cache) (ch : Bool) (c2 : Cache) (ch2 : Bool)
      (evs : List Ev),
      ss.Nodup → s ∈ ss →
      sectionLoop course env cache ch ss = .ok c2 ch2 evs →
      countKeyEvents (course ++ "-" ++ s) evs =
        if (env s).quota = (cacheGet cache s).getD "" then 0 else 1 := by
  intro ss
  induction ss with
  | nil =>
    intro cache ch c2 ch2 evs _ hs _
    simp at hs
  | cons a rest ih =>
    intro cache ch c2 ch2 evs hnd hs h
    by_cases hf : (env a).rowFound = true
    · by_cases hid : (env a).idText = course ++ "-" ++ a
      · rw [sectionLoop_cons_good course env cache ch a rest hf hid] at h
        cases hrec : sectionLoop course env (cacheSet cache a (env a).quota)
            (if (cacheGet cache a).getD "" = (env a).quota then ch else true)
            rest with
        | ok c3 ch3 e3 =>
          rw [hrec] at h
          simp only [SecResult.withEvents, SecResult.ok.injEq] at h
          rw [← h.2.2, countKeyEvents, List.countP_append]
          by_cases hsa : s = a
          · subst hsa
            have hsr : s ∉ rest := (List.nodup_cons.mp hnd).1
            have h0 := sectionLoop_countKey_notMem course env s rest
              (cacheSet cache s (env s).quota)
              (if (cacheGet cache s).getD "" = (env s).quota then ch else true)
              hsr
            rw [hrec] at h0
            rw [countKeyEvents, SecResult.eventsOf] at h0
            rw [h0, Nat.add_zero]
            by_cases hq : (cacheGet cache s).getD "" = (env s).quota
            · rw [if_pos hq, if_pos hq.symm]
              simp
            · rw [if_neg hq, if_neg (fun hh => hq hh.symm)]
              simp [List.countP_cons, keyHit_self]
          · have hsr : s ∈ rest := by
              rcases List.mem_cons.mp hs with he | he
              · exact absurd he hsa
              · exact he
            have hget : cacheGet (cacheSet cache a (env a).quota) s =
                cacheGet cache s :=
              cacheGet_set_ne _ _ _ _ (fun hh => hsa hh.symm)
            have hrest := ih _ _ _ _ _ (List.Nodup.of_cons hnd) hsr hrec
            rw [countKeyEvents] at hrest
            rw [hrest, hget]
            have hcs : course ++ "-" ++ a ≠ course ++ "-" ++ s :=
              fun hh => hsa ((course_section_inj hh).symm)
            by_cases hq : (cacheGet cache a).getD "" = (env a).quota
            · rw [if_pos hq]
              simp
            · rw [if_neg hq]
              simp [List.countP_cons, keyHit_other _ hcs]
        | sectionMissing c3 e3 =>
          rw [hrec] at h
          simp [SecResult.withEvents] at h
        | badId c3 x3 e3 =>
          rw [hrec] at h
          simp [SecResult.withEvents] at h
      · rw [sectionLoop_cons_badId course env cache ch a rest hf hid] at h
        simp at h
    · have hf' : (env a).rowFound = false := by
        cases hx : (env a).rowFound
        · rfl
        · exact absurd hx hf
      rw [sectionLoop_cons_notFound course env cache ch a rest hf'] at h
      simp at h

theorem sectionLoop_prefix_missing (course : String) (env : String → SectionData)
    (bad : String) (post : List String) (hbad : (env bad).rowFound = false) :
    ∀ (pre : List String) (cache : Cache) (ch : Bool),
      (∀ s ∈ pre, (env s).rowFound = true ∧
        (env s).idText = course ++ "-" ++ s) →
      ∃ evs, sectionLoop course env cache ch (pre ++ bad :: post) =
          .sectionMissing (applyUpdates env cache pre) evs ∧
        Ev.sectionNotFound (course ++ "-" ++ bad) ∈ evs := by
  intro pre
  induction pre with
  | nil =>
    intro cache ch _
    refine ⟨[Ev.sectionNotFound (course ++ "-" ++ bad)], ?_, by simp⟩
    rw [List.nil_append]
    exact sectionLoop_cons_notFound course env cache ch bad post hbad
  | cons a rest ih =>
    intro cache ch hpre
    have ha := hpre a (List.mem_cons_self a rest)
    have hrest : ∀ s ∈ rest, (env s).rowFound = true ∧
        (env s).idText = course ++ "-" ++ s :=
      fun s hs => hpre s (List.mem_cons_of_mem _ hs)
    obtain ⟨evs, heq, hmem⟩ := ih (cacheSet cache a (env a).quota)
      (if (cacheGet cache a).getD "" = (env a).quota then ch else true) hrest
    rw [List.cons_append,
      sectionLoop_cons_good course env cache ch a (rest ++ bad :: post)
        ha.1 ha.2, heq]
    refine ⟨(if (cacheGet cache a).getD "" = (env a).quota then []
      else [Ev.quotaChange (course ++ "-" ++ a) (env a).quota]) ++ evs, ?_, ?_⟩
    · simp [SecResult.withEvents, applyUpdates]
    · exact List.mem_append.mpr (Or.inr hmem)

theorem sectionLoop_prefix_badId (course : String) (env : String → SectionData)
    (bad : String) (post : List String) (hbf : (env bad).rowFound = true)
    (hbid : (env bad).idText ≠ course ++ "-" ++ bad) :
    ∀ (pre : List String) (cache : Cache) (ch : Bool),
      (∀ s ∈ pre, (env s).rowFound = true ∧
        (env s).idText = course ++ "-" ++ s) →
      ∃ evs, sectionLoop course env cache ch (pre ++ bad :: post) =
          .badId (applyUpdates env cache pre) (course ++ "-" ++ bad) evs := by
  intro pre
  induction pre with
  | nil =>
    intro cache ch _
    refine ⟨[], ?_⟩
    rw [List.nil_append]
    exact sectionLoop_cons_badId course env cache ch bad post hbf hbid
  | cons a rest ih =>
    intro cache ch hpre
    have ha := hpre a (List.mem_cons_self a rest)
    have hrest : ∀ s ∈ rest, (env s).rowFound = true ∧
        (env s).idText = course ++ "-" ++ s :=
      fun s hs => hpre s (List.mem_cons_of_mem _ hs)
    obtain ⟨evs, heq⟩ := ih (cacheSet cache a (env a).quota)
      (if (cacheGet cache a).getD "" = (env a).quota then ch else true) hrest
    rw [List.cons_append,
      sectionLoop_cons_good course env cache ch a (rest ++ bad :: post)
        ha.1 ha.2, heq]
    refine ⟨(if (cacheGet cache a).getD "" = (env a).quota then []
      else [Ev.quotaChange (course ++ "-" ++ a) (env a).quota]) ++ evs, ?_⟩
    simp [SecResult.withEvents, applyUpdates]

theorem sectionLoop_count_close (course : String) (env : String → SectionData)
    (ss : List String) (cache : Cache) (ch : Bool) :
    (sectionLoop course env cache ch ss).eventsOf.count Ev.close = 0 :=
  sectionLoop_count_not_row course env ss cache ch rfl

theorem sectionLoop_count_unchanged (course : String) (env : String → SectionData)
    (ss : List String) (cache : Cache) (ch : Bool) :
    (sectionLoop course env cache ch ss).eventsOf.count Ev.unchanged = 0 :=
  sectionLoop_count_not_row course env ss cache ch rfl

theorem sectionLoop_count_clickTarget (course : String)
    (env : String → SectionData) (ss : List String) (cache : Cache) (ch : Bool) :
    (sectionLoop course env cache ch ss).eventsOf.count Ev.clickTarget = 0 :=
  sectionLoop_count_not_row course env ss cache ch rfl

theorem cycleStep_close_stop (course : String) (sections : List String)
    (tries : Nat) (cache : Cache) (e : CycleEnv) (evs : List Ev) (out : Outcome)
    (h : cycleStep course sections tries cache e = .stop evs out) :
    evs.count Ev.close = closeCountOf out := by
  simp only [cycleStep] at h
  cases hacq : (acquire tries e.tableReports).2 with
  | none =>
    simp only [hacq] at h
    simp at h
  | some tries2 =>
    simp only [hacq] at h
    cases hcl : e.click with
    | raised =>
      simp only [hcl, CycleResult.stop.injEq] at h
      rw [← h.1, ← h.2]
      simp [List.count_append, List.count_cons,
        acquire_count_eq_zero e.tableReports tries, closeCountOf]
    | text t =>
      simp only [hcl] at h
      by_cases ht : t = course
      · rw [if_pos ht] at h
        cases hloop : sectionLoop course e.sec cache false sections with
        | ok c2 ch2 levs =>
          simp only [hloop] at h
          have hlc := sectionLoop_count_close course e.sec sections cache false
          rw [hloop] at hlc
          simp only [SecResult.eventsOf] at hlc
          cases hint : e.interrupted
          · simp only [hint] at h
            simp at h
          · simp only [hint, eq_self_iff_true, if_true, ite_true,
              CycleResult.stop.injEq] at h
            rw [← h.1, ← h.2]
            cases hch : ch2 <;>
              simp [List.count_append, List.count_cons, hlc,
                acquire_count_eq_zero e.tableReports tries, closeCountOf]
        | sectionMissing c2 levs =>
          simp only [hloop, CycleResult.stop.injEq] at h
          have hlc := sectionLoop_count_close course e.sec sections cache false
          rw [hloop] at hlc
          simp only [SecResult.eventsOf] at hlc
          rw [← h.1, ← h.2]
          simp [List.count_append, List.count_cons, hlc,
            acquire_count_eq_zero e.tableReports tries, closeCountOf]
        | badId c2 cs levs =>
          simp only [hloop, CycleResult.stop.injEq] at h
          have hlc := sectionLoop_count_close course e.sec sections cache false
          rw [hloop] at hlc
          simp only [SecResult.eventsOf] at hlc
          rw [← h.1, ← h.2]
          simp [List.count_append, List.count_cons, hlc,
            acquire_count_eq_zero e.tableReports tries, closeCountOf]
      · rw [if_neg ht] at h
        simp only [CycleResult.stop.injEq] at h
        rw [← h.1, ← h.2]
        simp [List.count_append, List.count_cons,
          acquire_count_eq_zero e.tableReports tries, closeCountOf]

theorem cycleStep_close_next (course : String) (sections : List String)
    (tries : Nat) (cache : Cache) (e : CycleEnv) (t : Nat) (c : Cache)
    (evs : List Ev) (h : cycleStep course sections tries cache e = .next t c evs) :
    evs.count Ev.close = 0 := by
  simp only [cycleStep] at h
  cases hacq : (acquire tries e.tableReports).2 with
  | none =>
    simp only [hacq] at h
    simp at h
  | some tries2 =>
    simp only [hacq] at h
    cases hcl : e.click with
    | raised =>
      simp only [hcl] at h
      simp at h
    | text t' =>
      simp only [hcl] at h
      by_cases ht : t' = course
      · rw [if_pos ht] at h
        cases hloop : sectionLoop course e.sec cache false sections with
        | ok c2 ch2 levs =>
          simp only [hloop] at h
          have hlc := sectionLoop_count_close course e.sec sections cache false
          rw [hloop] at hlc
          simp only [SecResult.eventsOf] at hlc
          cases hint : e.interrupted
          · simp only [hint, if_false, Bool.false_eq_true, ite_false,
              CycleResult.next.injEq] at h
            rw [← h.2.2]
            cases hch : ch2 <;>
              simp [List.count_append, List.count_cons, hlc,
                acquire_count_eq_zero e.tableReports tries]
          · simp only [hint] at h
            simp at h
        | sectionMissing c2 levs =>
          simp only [hloop] at h
          simp at h
        | badId c2 cs levs =>
          simp only [hloop] at h
          simp at h
      · rw [if_neg ht] at h
        simp at h

theorem cycleStep_close_stuck (course : String) (sections : List String)
    (tries : Nat) (cache : Cache) (e : CycleEnv) (evs : List Ev)
    (h : cycleStep course sections tries cache e = .stuck evs) :
    evs.count Ev.close = 0 := by
  simp only [cycleStep] at h
  cases hacq : (acquire tries e.tableReports).2 with
  | none =>
    simp only [hacq, CycleResult.stuck.injEq] at h
    rw [← h]
    exact acquire_count_eq_zero e.tableReports tries (by simp)
  | some tries2 =>
    simp only [hacq] at h
    cases hcl : e.click with
    | raised =>
      simp only [hcl] at h
      simp at h
    | text t' =>
      simp only [hcl] at h
      by_cases ht : t' = course
      · rw [if_pos ht] at h
        cases hloop : sectionLoop course e.sec cache false sections with
        | ok c2 ch2 levs =>
          simp only [hloop] at h
          cases hint : e.interrupted <;> simp only [hint] at h <;> simp at h
        | sectionMissing c2 levs =>
          simp only [hloop] at h
          simp at h
        | badId c2 cs levs =>
          simp only [hloop] at h
          simp at h
      · rw [if_neg ht] at h
        simp at h

theorem runCycles_count_close (course : String) (sections : List String) :
    ∀ (envs : List CycleEnv) (tries : Nat) (cache : Cache),
      (runCycles course sections tries cache envs).1.count Ev.close =
        closeCountOf (runCycles course sections tries cache envs).2 := by
  intro envs
  induction envs with
  | nil => intro tries cache; simp [runCycles, closeCountOf]
  | cons e rest ih =>
    intro tries cache
    cases hstep : cycleStep course sections tries cache e with
    | next t c evs =>
      simp only [runCycles, hstep]
      rw [List.count_append,
        cycleStep_close_next course sections tries cache e t c evs hstep,
        Nat.zero_add]
      exact ih t c
    | stop evs out =>
      simp only [runCycles, hstep]
      exact cycleStep_close_stop course sections tries cache e evs out hstep
    | stuck evs =>
      simp only [runCycles, hstep]
      exact cycleStep_close_stuck course sections tries cache e evs hstep

theorem runCycles_cons_stop (course : String) (sections : List String)
    (tries : Nat) (cache : Cache) (e : CycleEnv) (evs : List Ev) (out : Outcome)
    (h : cycleStep course sections tries cache e = .stop evs out)
    (rest : List CycleEnv) :
    runCycles course sections tries cache (e :: rest) = (evs, out) := by
  simp [runCycles, h]

theorem cycleStep_eq_of_missing (course : String) (sections : List String)
    (tries : Nat) (cache : Cache) (e : CycleEnv) (tries2 : Nat) (c2 : Cache)
    (levs : List Ev)
    (hacq : (acquire tries e.tableReports).2 = some tries2)
    (hclick : e.click = .text course)
    (hloop : sectionLoop course e.sec cache false sections =
      .sectionMissing c2 levs) :
    cycleStep course sections tries cache e =
      .stop ((acquire tries e.tableReports).1 ++ [Ev.clickTarget] ++ levs ++
        [Ev.close, Ev.close]) .exited := by
  simp only [cycleStep, hacq, hclick, hloop, eq_self_iff_true, if_true, ite_true]

theorem cycleStep_eq_of_badId (course : String) (sections : List String)
    (tries : Nat) (cache : Cache) (e : CycleEnv) (tries2 : Nat) (c2 : Cache)
    (cs : String) (levs : List Ev)
    (hacq : (acquire tries e.tableReports).2 = some tries2)
    (hclick : e.click = .text course)
    (hloop : sectionLoop course e.sec cache false sections =
      .badId c2 cs levs) :
    cycleStep course sections tries cache e =
      .stop ((acquire tries e.tableReports).1 ++ [Ev.clickTarget] ++ levs ++
        [Ev.close]) (.assertFailed cs) := by
  simp only [cycleStep, hacq, hclick, hloop, eq_self_iff_true, if_true, ite_true]

theorem cycleStep_eq_of_mismatch (course : String) (sections : List String)
    (tries : Nat) (cache : Cache) (e : CycleEnv) (tries2 : Nat) (t : String)
    (hacq : (acquire tries e.tableReports).2 = some tries2)
    (hclick : e.click = .text t) (ht : t ≠ course) :
    cycleStep course sections tries cache e =
      .stop ((acquire tries e.tableReports).1 ++
        [Ev.couldNotClick, Ev.close, Ev.close]) .exited := by
  simp only [cycleStep, hacq, hclick, ht, if_false, ite_false]

theorem cycleStep_eq_of_ok (course : String) (sections : List String)
    (tries : Nat) (cache : Cache) (e : CycleEnv) (tries2 : Nat) (c2 : Cache)
    (ch2 : Bool) (levs : List Ev)
    (hacq : (acquire tries e.tableReports).2 = some tries2)
    (hclick : e.click = .text course) (hint : e.interrupted = false)
    (hloop : sectionLoop course e.sec cache false sections = .ok c2 ch2 levs) :
    cycleStep course sections tries cache e =
      .next tries2 c2 ((acquire tries e.tableReports).1 ++ [Ev.clickTarget] ++
        levs ++ (if ch2 then [] else [Ev.unchanged]) ++ [Ev.refresh]) := by
  simp only [cycleStep, hacq, hclick, hloop, hint, eq_self_iff_true, if_true,
    ite_true, if_false, Bool.false_eq_true, ite_false]

/-- C1 counterexample: the claim says the very first successful read of a key
always produces exactly one change notification, but when the first observed
value is the empty string the cycle completes (result `ok`) with an empty
event list — zero notifications — because the missing-entry default used at
lines 80-83 is itself the empty string. -/
theorem C1_first_read_empty_counterexample :
    cacheGet [] "001" = none ∧
    sectionLoop "CS" envEmptyQuota [] false ["001"] =
      .ok [("001", "")] false [] := by
  exact ⟨rfl, by decide⟩

/-- C1 (amended): within a completed poll cycle, a change notification for a
tracked key is emitted exactly once when the newly read value differs from
the cache's entry for that key — where a key with no entry reads through the
empty-string sentinel — and zero times otherwise. In particular the first
successful read notifies exactly once unless the observed value is itself
the empty string, which equals the sentinel and notifies zero times. -/
theorem C1_notification_iff_diff (course : String) (env : String → SectionData)
    (sections : List String) (cache : Cache) (s : String) (c2 : Cache)
    (ch2 : Bool) (evs : List Ev) (hnd : sections.Nodup) (hs : s ∈ sections)
    (hok : sectionLoop course env cache false sections = .ok c2 ch2 evs) :
    countKeyEvents (course ++ "-" ++ s) evs =
      if (env s).quota = (cacheGet cache s).getD "" then 0 else 1 :=
  sectionLoop_countKey course env s sections cache false c2 ch2 evs hnd hs hok

/-- Witness for C1: one key, empty cache, observed value "5": the theorem's
hypotheses hold and it yields exactly one notification. -/
theorem C1_notification_iff_diff_witness :
    countKeyEvents ("CS" ++ "-" ++ "001") [Ev.quotaChange "CS-001" "5"] =
      if (envAllOk "001").quota = (cacheGet [] "001").getD "" then 0 else 1 :=
  C1_notification_iff_diff "CS" envAllOk ["001"] [] "001" [("001", "5")] true
    [Ev.quotaChange "CS-001" "5"] (by decide) (by decide) (by decide)

/-- C2 counterexample: on the fatal missing-key path the driver is closed
twice, not exactly once: the handler at lines 73-75 closes and calls
`exit()`, and the resulting SystemExit runs `finally: driver.close()`
again. -/
theorem C2_double_close_counterexample :
    (runCycles "CS" ["001"] 0 [] [ceNoRows]).2 = Outcome.exited ∧
    (runCycles "CS" ["001"] 0 [] [ceNoRows]).1.count Ev.close = 2 := by
  decide

/-- C2 (amended): the number of `driver.close()` calls is fully determined
by the exit path: exactly twice on every `exit()` path (fatal click/identity
failure and fatal missing-key, which close explicitly and then again in the
`finally`), exactly once on an operator interrupt or a propagated line-78
assertion error (the `finally` alone), and zero times while the loop is
still running or spinning in acquisition. -/
theorem C2_close_count (course : String) (sections : List String)
    (envs : List CycleEnv) (tries : Nat) (cache : Cache) :
    (runCycles course sections tries cache envs).1.count Ev.close =
      closeCountOf (runCycles course sections tries cache envs).2 :=
  runCycles_count_close course sections envs tries cache

/-- C3 counterexample: with M = 20 ≥ 10 table absences before success, the
acquisition loop triggers two page reloads, not exactly one: the counter
reaches 10 twice (after the 10th and the 20th absence). -/
theorem C3_twenty_absences_counterexample :
    acquire 0 (List.replicate 20 false ++ [true]) =
      (List.replicate 2 Ev.couldNotLoad, some 0) := by
  decide

/-- C3 (amended): with the counter starting at zero and the table reported
absent exactly M times then present, acquisition succeeds with exactly
⌊M / 10⌋ page reloads — zero when M < 10, exactly one when 10 ≤ M < 20 —
and the counter value at exit is M mod 10 (it is reset to zero each time a
reload is triggered). -/
theorem C3_reload_count (M : Nat) :
    acquire 0 (List.replicate M false ++ [true]) =
      (List.replicate (M / max_tries) Ev.couldNotLoad,
        some (M % max_tries)) := by
  have hf := acquire_replicate M 0 (by simp [max_tries])
  simpa [max_tries] using hf

/-- C4 counterexample: sections ["001", "002"] where "002" is missing: the
cycle's fatal path terminates the loop, yet the cache update for "001"
(read earlier in the same cycle) has already been applied — contradicting
"the fatal error path terminates before any cache update of that cycle is
applied". -/
theorem C4_partial_update_counterexample :
    sectionLoop "CS" envMissing002 [] false ["001", "002"] =
      .sectionMissing [("001", "5")]
        [Ev.quotaChange "CS-001" "5", Ev.sectionNotFound "CS-002"] ∧
    cacheGet [("001", "5")] "001" = some "5" := by
  decide

/-- C4 (amended): cache updates are applied per key, immediately as each
key is read (line 85); when a later key is missing, the fatal path
terminates the cycle with exactly the updates of the keys read before the
missing one applied, and all other entries untouched. -/
theorem C4_updates_prefix (course : String) (env : String → SectionData)
    (cache : Cache) (pre post : List String) (bad : String)
    (hpre : ∀ s ∈ pre, (env s).rowFound = true ∧
      (env s).idText = course ++ "-" ++ s)
    (hbad : (env bad).rowFound = false) (hnd : pre.Nodup) :
    ∃ c2 evs, sectionLoop course env cache false (pre ++ bad :: post) =
        .sectionMissing c2 evs ∧
      (∀ s ∈ pre, cacheGet c2 s = some (env s).quota) ∧
      (∀ k, k ∉ pre → cacheGet c2 k = cacheGet cache k) := by
  obtain ⟨evs, heq, _⟩ :=
    sectionLoop_prefix_missing course env bad post hbad pre cache false hpre
  exact ⟨applyUpdates env cache pre, evs, heq,
    fun s hs => applyUpdates_get_mem env pre cache s hs hnd,
    fun k hk => applyUpdates_get_notMem env pre cache k hk⟩

/-- Witness for C4: key "001" read before missing key "002" has its update
applied when the fatal path fires. -/
theorem C4_updates_prefix_witness :
    ∃ c2 evs, sectionLoop "CS" envMissing002 [] false ["001", "002"] =
        .sectionMissing c2 evs ∧
      (∀ s ∈ ["001"], cacheGet c2 s = some (envMissing002 s).quota) ∧
      (∀ k, k ∉ ["001"] → cacheGet c2 k = cacheGet [] k) :=
  C4_updates_prefix "CS" envMissing002 [] ["001"] [] "002"
    (by decide) (by decide) (by decide)

/-- C5: when a requested key has no matching row under the target, the
process prints the fatal configuration report carrying the offending
`course_section` identifier, closes the driver, and exits; the run's result
does not depend on any later cycle environments — no further poll cycles
run. -/
theorem C5_missing_key_fatal (course : String) (pre post : List String)
    (bad : String) (tries : Nat) (cache : Cache) (e : CycleEnv) (tries2 : Nat)
    (hacq : (acquire tries e.tableReports).2 = some tries2)
    (hclick : e.click = .text course)
    (hpre : ∀ s ∈ pre, (e.sec s).rowFound = true ∧
      (e.sec s).idText = course ++ "-" ++ s)
    (hbad : (e.sec bad).rowFound = false) :
    ∃ evs, (∀ rest : List CycleEnv,
        runCycles course (pre ++ bad :: post) tries cache (e :: rest) =
          (evs, Outcome.exited)) ∧
      Ev.sectionNotFound (course ++ "-" ++ bad) ∈ evs ∧ Ev.close ∈ evs := by
  obtain ⟨levs, heq, hmem⟩ :=
    sectionLoop_prefix_missing course e.sec bad post hbad pre cache false hpre
  have hstep := cycleStep_eq_of_missing course (pre ++ bad :: post) tries cache
    e tries2 (applyUpdates e.sec cache pre) levs hacq hclick heq
  refine ⟨(acquire tries e.tableReports).1 ++ [Ev.clickTarget] ++ levs ++
    [Ev.close, Ev.close], ?_, ?_, ?_⟩
  · intro rest
    exact runCycles_cons_stop course (pre ++ bad :: post) tries cache e _ _
      hstep rest
  · simp only [List.mem_append]
    exact Or.inl (Or.inr hmem)
  · simp only [List.mem_append]
    exact Or.inr (by simp)

/-- Witness for C5: key "002" missing after key "001"; the run exits with
the fatal report regardless of later cycles. -/
theorem C5_missing_key_fatal_witness :
    ∃ evs, (∀ rest : List CycleEnv,
        runCycles "CS" (["001"] ++ "002" :: []) 0 [] (ceMissing002 :: rest) =
          (evs, Outcome.exited)) ∧
      Ev.sectionNotFound ("CS" ++ "-" ++ "002") ∈ evs ∧ Ev.close ∈ evs :=
  C5_missing_key_fatal "CS" ["001"] [] "002" 0 [] ceMissing002 0
    (by decide) (by decide) (by decide) (by decide)

/-- C6: when the target row's displayed identifier does not equal the
requested target, the process makes no retry (the run's result ignores all
later cycle environments), reports the failure, closes the driver and
exits, and the row is never clicked. -/
theorem C6_target_mismatch_fatal (course : String) (sections : List String)
    (tries : Nat) (cache : Cache) (e : CycleEnv) (t : String) (tries2 : Nat)
    (hacq : (acquire tries e.tableReports).2 = some tries2)
    (hclick : e.click = .text t) (ht : t ≠ course) :
    ∃ evs, (∀ rest : List CycleEnv,
        runCycles course sections tries cache (e :: rest) =
          (evs, Outcome.exited)) ∧
      Ev.clickTarget ∉ evs ∧ Ev.couldNotClick ∈ evs ∧
      evs.count Ev.close = 2 := by
  have hstep := cycleStep_eq_of_mismatch course sections tries cache e tries2 t
    hacq hclick ht
  refine ⟨(acquire tries e.tableReports).1 ++
    [Ev.couldNotClick, Ev.close, Ev.close], ?_, ?_, ?_, ?_⟩
  · intro rest
    exact runCycles_cons_stop course sections tries cache e _ _ hstep rest
  · intro hmem
    rcases List.mem_append.mp hmem with h1 | h1
    · have h2 := acquire_events_all e.tableReports tries _ h1
      exact absurd h2 (by decide)
    · simp at h1
  · exact List.mem_append.mpr (Or.inr (by simp))
  · rw [List.count_append,
      @acquire_count_eq_zero e.tableReports tries Ev.close (by decide)]
    decide

/-- Witness for C6: the target row reads "XX" instead of "CS"; the run
aborts without clicking. -/
theorem C6_target_mismatch_fatal_witness :
    ∃ evs, (∀ rest : List CycleEnv,
        runCycles "CS" ["001"] 0 [] (ceWrongTarget :: rest) =
          (evs, Outcome.exited)) ∧
      Ev.clickTarget ∉ evs ∧ Ev.couldNotClick ∈ evs ∧
      evs.count Ev.close = 2 :=
  C6_target_mismatch_fatal "CS" ["001"] 0 [] ceWrongTarget "XX" 0
    (by decide) (by decide) (by decide)

/-- C7: in a completed poll cycle the single "quotas are unchanged" line is
emitted exactly once when every tracked key's newly read value equals its
cached value (reading a missing entry through the empty-string sentinel),
and not at all when at least one key changed. -/
theorem C7_unchanged_iff (course : String) (sections : List String)
    (tries : Nat) (cache : Cache) (e : CycleEnv) (tries2 : Nat) (c2 : Cache)
    (ch2 : Bool) (levs : List Ev) (hnd : sections.Nodup)
    (hacq : (acquire tries e.tableReports).2 = some tries2)
    (hclick : e.click = .text course) (hint : e.interrupted = false)
    (hok : sectionLoop course e.sec cache false sections = .ok c2 ch2 levs) :
    (cycleStep course sections tries cache e).eventsOf.count Ev.unchanged =
      if ∀ s ∈ sections, (e.sec s).quota = (cacheGet cache s).getD ""
        then 1 else 0 := by
  rw [cycleStep_eq_of_ok course sections tries cache e tries2 c2 ch2 levs
    hacq hclick hint hok]
  simp only [CycleResult.eventsOf]
  have hflag := sectionLoop_flag_iff course e.sec sections cache c2 ch2 levs
    hnd hok
  have hlu := sectionLoop_count_unchanged course e.sec sections cache false
  rw [hok] at hlu
  simp only [SecResult.eventsOf] at hlu
  have hau : (acquire tries e.tableReports).1.count Ev.unchanged = 0 :=
    @acquire_count_eq_zero e.tableReports tries Ev.unchanged (by decide)
  by_cases hall : ∀ s ∈ sections, (e.sec s).quota = (cacheGet cache s).getD ""
  · rw [if_pos hall]
    have hch : ch2 = false := hflag.mpr hall
    rw [hch]
    simp [List.count_append, List.count_cons, hlu, hau]
  · rw [if_neg hall]
    have hch : ch2 = true := by
      cases hc : ch2
      · exact absurd (hflag.mp hc) hall
      · rfl
    rw [hch]
    simp [List.count_append, List.count_cons, hlu, hau]

/-- Witness for C7: key "001" first read with value "5" differs from the
sentinel, so the healthy cycle emits no "unchanged" line. -/
theorem C7_unchanged_iff_witness :
    (cycleStep "CS" ["001"] 0 [] ceHealthy).eventsOf.count Ev.unchanged =
      if ∀ s ∈ ["001"], (ceHealthy.sec s).quota = (cacheGet [] s).getD ""
        then 1 else 0 :=
  C7_unchanged_iff "CS" ["001"] 0 [] ceHealthy 0 [("001", "5")] true
    [Ev.quotaChange "CS-001" "5"] (by decide) (by decide) (by decide)
    (by decide) (by decide)

/-- C8: the "unknown" sentinel is the empty string: a key absent from the
cache is read through the default "", so a first read whose observed value
is the empty string emits no change notification, and the cache afterwards
holds "" for that key. -/
theorem C8_empty_sentinel (course : String) (env : String → SectionData)
    (sections : List String) (cache : Cache) (s : String) (c2 : Cache)
    (ch2 : Bool) (evs : List Ev) (hnd : sections.Nodup) (hs : s ∈ sections)
    (hnone : cacheGet cache s = none) (hq : (env s).quota = "")
    (hok : sectionLoop course env cache false sections = .ok c2 ch2 evs) :
    countKeyEvents (course ++ "-" ++ s) evs = 0 ∧ cacheGet c2 s = some "" := by
  constructor
  · rw [sectionLoop_countKey course env s sections cache false c2 ch2 evs hnd
      hs hok, hnone, hq]
    simp
  · have hc := sectionLoop_ok_cache course env sections cache false c2 ch2 evs
      hok
    rw [hc, applyUpdates_get_mem env sections cache s hs hnd, hq]

/-- Witness for C8: key "001" not in the cache, observed value "": zero
notifications, cache entry "". -/
theorem C8_empty_sentinel_witness :
    countKeyEvents ("CS" ++ "-" ++ "001") [] = 0 ∧
    cacheGet [("001", "")] "001" = some "" :=
  C8_empty_sentinel "CS" envEmptyQuota ["001"] [] "001" [("001", "")] false []
    (by decide) (by decide) (by decide) (by decide) (by decide)

/-- C9: the acquisition retry counter is process-global: a successful
acquisition returns the accumulated counter value t + M unreset (first
conjunct), so absences accumulate across cycles — a run whose first cycle
sees five absences triggers no reload, but the same five absences in the
second cycle of a two-cycle run push the inherited counter to the maximum
and trigger a reload after only five absences within that cycle (second
and third conjuncts). -/
theorem C9_tries_accumulate (t M : Nat) (h : t + M < max_tries) :
    acquire t (List.replicate M false ++ [true]) = ([], some (t + M)) ∧
    (runCycles "CS" ["001"] 0 [] [ceFiveAbsences]).1.count
      Ev.couldNotLoad = 0 ∧
    (runCycles "CS" ["001"] 0 [] [ceFiveAbsences, ceFiveAbsences]).1.count
      Ev.couldNotLoad = 1 := by
  refine ⟨?_, by decide, by decide⟩
  have hle : t ≤ max_tries :=
    le_of_lt (lt_of_le_of_lt (Nat.le_add_right t M) h)
  rw [acquire_replicate M t hle]
  have h10 : t + M < 10 := by simpa [max_tries] using h
  rw [Nat.div_eq_of_lt h10, Nat.mod_eq_of_lt h10]
  simp

/-- Witness for C9 at t = 2, M = 3: acquisition succeeds with the counter
left at 5, not reset. -/
theorem C9_tries_accumulate_witness :
    acquire 2 (List.replicate 3 false ++ [true]) = ([], some (2 + 3)) ∧
    (runCycles "CS" ["001"] 0 [] [ceFiveAbsences]).1.count
      Ev.couldNotLoad = 0 ∧
    (runCycles "CS" ["001"] 0 [] [ceFiveAbsences, ceFiveAbsences]).1.count
      Ev.couldNotLoad = 1 :=
  C9_tries_accumulate 2 3 (by decide)

/-- C10: when a per-key row is found but its first-cell identifier text
mismatches, the line-78 assertion error propagates uncaught (outcome
`assertFailed` with the offending identifier), later cycle environments are
ignored, and the driver is closed exactly once — by the `finally` guard
alone. -/
theorem C10_assert_uncaught (course : String) (pre post : List String)
    (bad : String) (tries : Nat) (cache : Cache) (e : CycleEnv) (tries2 : Nat)
    (hacq : (acquire tries e.tableReports).2 = some tries2)
    (hclick : e.click = .text course)
    (hpre : ∀ s ∈ pre, (e.sec s).rowFound = true ∧
      (e.sec s).idText = course ++ "-" ++ s)
    (hbf : (e.sec bad).rowFound = true)
    (hbid : (e.sec bad).idText ≠ course ++ "-" ++ bad) :
    ∃ evs, (∀ rest : List CycleEnv,
        runCycles course (pre ++ bad :: post) tries cache (e :: rest) =
          (evs, Outcome.assertFailed (course ++ "-" ++ bad))) ∧
      evs.count Ev.close = 1 := by
  obtain ⟨levs, heq⟩ :=
    sectionLoop_prefix_badId course e.sec bad post hbf hbid pre cache false
      hpre
  have hstep := cycleStep_eq_of_badId course (pre ++ bad :: post) tries cache
    e tries2 (applyUpdates e.sec cache pre) (course ++ "-" ++ bad) levs hacq
    hclick heq
  refine ⟨(acquire tries e.tableReports).1 ++ [Ev.clickTarget] ++ levs ++
    [Ev.close], ?_, ?_⟩
  · intro rest
    exact runCycles_cons_stop course (pre ++ bad :: post) tries cache e _ _
      hstep rest
  · have hlc : levs.count Ev.close = 0 := by
      have hx := sectionLoop_count_close course e.sec (pre ++ bad :: post)
        cache false
      rw [heq] at hx
      simpa [SecResult.eventsOf] using hx
    simp [List.count_append, List.count_cons, hlc,
      @acquire_count_eq_zero e.tableReports tries Ev.close (by decide)]

/-- Witness for C10: every row carries label "WRONG"; the run ends in the
propagated assertion failure for "CS-001" with a single close. -/
theorem C10_assert_uncaught_witness :
    ∃ evs, (∀ rest : List CycleEnv,
        runCycles "CS" ([] ++ "001" :: []) 0 [] (ceWrongLabel :: rest) =
          (evs, Outcome.assertFailed ("CS" ++ "-" ++ "001"))) ∧
      evs.count Ev.close = 1 :=
  C10_assert_uncaught "CS" [] [] "001" 0 [] ceWrongLabel 0
    (by decide) (by decide) (by decide) (by decide) (by decide)

end WatchQuota
